import Mathlib

/-!
Shallow embedding of the goissue command-line client (src/goissue.go) and
proofs about it.  The embedding covers the parts the verified claims are
about: the HTML-tree flattener (`dumpLevel`/`dump`), the XML escaper
(`xmlSpecial`/`xmlEscape`), the draft parser inside `createIssue`, the
login-token extraction of `authLogin`, the Atom document assembled for
issue creation, and the dispatch structure of `main`.

Strings are modelled with Lean `String`; the Go code indexes and slices
byte-wise, but every literal it compares against is ASCII, so the
character-level model used here decides each comparison exactly as the
byte-level code does.
-/

/-! ## HTML tree model (package html: NodeType, Node) -/

/-- Node kinds of the HTML package consumed by `dumpLevel`.  The Go switch
names ErrorNode, DocumentNode, ElementNode, TextNode and CommentNode;
every other kind (e.g. DoctypeNode) falls to the `default` branch. -/
inductive NodeType where
  | errorNode
  | textNode
  | documentNode
  | elementNode
  | commentNode
  | doctypeNode
  deriving DecidableEq

/-- Parsed HTML node: a kind, the text payload `Data`, and the child list. -/
inductive HNode where
  | mk (type : NodeType) (data : String) (child : List HNode)

def HNode.type : HNode → NodeType
  | .mk t _ _ => t

def HNode.data : HNode → String
  | .mk _ d _ => d

def HNode.child : HNode → List HNode
  | .mk _ _ c => c

/-- Output of the indentation loop at the top of `dumpLevel`: `level`
copies of the two-space string. -/
def indentStr : Nat → String
  | 0 => ""
  | n + 1 => "  " ++ indentStr n

/-- Flag characters consumed after a '%' by fmt's directive parser. -/
def isFmtFlag (c : Char) : Bool :=
  c = '#' || c = '0' || c = '+' || c = '-' || c = ' '

/-- ASCII digit test used by fmt's width/precision parser. -/
def isAsciiDigit (c : Char) : Bool :=
  '0' ≤ c && c ≤ '9'

/-- Position inside a '%' directive while fmt scans a format string:
consuming flags, width digits, the spot after a '*' width, the spot after
the precision dot, precision digits, or the verb position after a '*'
precision. -/
inductive FmtPos where
  | flags
  | width
  | afterStarWidth
  | afterDot
  | prec
  | verbOnly

mutual

/-- Modelled from the behaviour of `fmt.Fprintf(w, format)` when it is
called with no operands, as `dumpLevel` does with `n.Data`
(src/goissue.go line 616): literal characters are copied; a '%' starts a
directive whose flags (# 0 + - space), width digits and precision digits
are consumed; a '*' width or precision, which would take an operand,
emits "%!(BADWIDTH)" or "%!(BADPREC)"; "%%" emits a single '%'; a format
ending inside a directive emits "%!(NOVERB)"; every other verb has no
operand left and emits "%!", the verb character, and "(MISSING)".
Argument indexes ("%[n]"), added to fmt after this program's Go 1-era
toolchain, are not modelled; such a '[' is read as a verb. -/
def doPrintf : List Char → List Char
  | [] => []
  | c :: cs => if c = '%' then fmtDirective FmtPos.flags cs else c :: doPrintf cs

/-- Scanner for a single '%' directive of `doPrintf`, by position. -/
def fmtDirective : FmtPos → List Char → List Char
  | _, [] => "%!(NOVERB)".data
  | pos, c :: cs =>
    match pos with
    | .flags =>
      if isFmtFlag c then fmtDirective .flags cs
      else if c = '*' then "%!(BADWIDTH)".data ++ fmtDirective .afterStarWidth cs
      else if isAsciiDigit c then fmtDirective .width cs
      else if c = '.' then
        match cs with
        | [] => "%!.(MISSING)".data
        | _ :: _ => fmtDirective .afterDot cs
      else if c = '%' then '%' :: doPrintf cs
      else "%!".data ++ c :: ("(MISSING)".data ++ doPrintf cs)
    | .width =>
      if isAsciiDigit c then fmtDirective .width cs
      else if c = '.' then
        match cs with
        | [] => "%!.(MISSING)".data
        | _ :: _ => fmtDirective .afterDot cs
      else if c = '%' then '%' :: doPrintf cs
      else "%!".data ++ c :: ("(MISSING)".data ++ doPrintf cs)
    | .afterStarWidth =>
      if c = '.' then
        match cs with
        | [] => "%!.(MISSING)".data
        | _ :: _ => fmtDirective .afterDot cs
      else if c = '%' then '%' :: doPrintf cs
      else "%!".data ++ c :: ("(MISSING)".data ++ doPrintf cs)
    | .afterDot =>
      if c = '*' then "%!(BADPREC)".data ++ fmtDirective .verbOnly cs
      else if isAsciiDigit c then fmtDirective .prec cs
      else if c = '%' then '%' :: doPrintf cs
      else "%!".data ++ c :: ("(MISSING)".data ++ doPrintf cs)
    | .prec =>
      if isAsciiDigit c then fmtDirective .prec cs
      else if c = '%' then '%' :: doPrintf cs
      else "%!".data ++ c :: ("(MISSING)".data ++ doPrintf cs)
    | .verbOnly =>
      if c = '%' then '%' :: doPrintf cs
      else "%!".data ++ c :: ("(MISSING)".data ++ doPrintf cs)

end

/-- Text written to the writer by `fmt.Fprintf(w, s)` with no operands. -/
def fprintfRender (s : String) : String :=
  String.mk (doPrintf s.data)

/-- Test that a string contains no '%', i.e. `fmt.Fprintf` copies it
verbatim. -/
def percentFree (s : String) : Bool :=
  s.data.all fun c => c ≠ '%'

mutual

/-- Embedding of `dumpLevel` (src/goissue.go lines 605-628).  The returned
pair is (text written to the writer, error); the Go function writes the
indentation first, then switches on the node type, then recurses over the
children, stopping at the first child error.  The text-node branch is
`fmt.Fprintf(w, n.Data)`, which format-processes `n.Data` with no
operands, modelled by `fprintfRender`. -/
def dumpLevel : HNode → Nat → String × Option String
  | .mk t d cs, level =>
    let ind := indentStr level
    match t with
    | .errorNode => (ind, some "unexpected ErrorNode")
    | .documentNode => (ind, some "unexpected DocumentNode")
    | .elementNode =>
      let r := dumpList cs (level + 1)
      (ind ++ r.1, r.2)
    | .textNode =>
      let r := dumpList cs (level + 1)
      (ind ++ fprintfRender d ++ r.1, r.2)
    | .commentNode => (ind, some "COMMENT")
    | .doctypeNode => (ind, some "unknown node type")

/-- Embedding of the `for _, c := range n.Child` loop shared by `dumpLevel`
and `dump`: children are rendered in order and the first error aborts. -/
def dumpList : List HNode → Nat → String × Option String
  | [], _ => ("", none)
  | c :: cs, level =>
    let r := dumpLevel c level
    match r.2 with
    | some e => (r.1, some e)
    | none =>
      let r2 := dumpList cs level
      (r.1 ++ r2.1, r2.2)

end

/-- Embedding of `dump` (src/goissue.go lines 630-641): a nil node or a
node with no children renders to the empty string; otherwise the children
are rendered at level 0 and any error discards the buffered output. -/
def dump : Option HNode → String × Option String
  | none => ("", none)
  | some n =>
    if n.child.length = 0 then ("", none)
    else
      match dumpList n.child 0 with
      | (out, none) => (out, none)
      | (_, some e) => ("", some e)

/-! ## Specification-side views of the flattener -/

mutual

/-- Rendering predicted for a node by the amended flattening claim: every
visited node contributes its own indentation, and a text node additionally
contributes its data as written by `fmt.Fprintf` with no operands (the
data itself whenever it contains no '%'); children render one level
deeper. -/
def flattenSpec : HNode → Nat → String
  | .mk t d cs, lv =>
    indentStr lv ++ (if t = NodeType.textNode then fprintfRender d else "")
      ++ flattenSpecList cs (lv + 1)

def flattenSpecList : List HNode → Nat → String
  | [], _ => ""
  | c :: cs, lv => flattenSpec c lv ++ flattenSpecList cs lv

end

mutual

/-- Rendering predicted by the claim as literally stated: only text nodes
contribute output, each preceded by the indentation of its own depth. -/
def claimRender : HNode → Nat → String
  | .mk t d cs, lv =>
    (if t = NodeType.textNode then indentStr lv ++ d else "") ++ claimRenderList cs (lv + 1)

def claimRenderList : List HNode → Nat → String
  | [], _ => ""
  | c :: cs, lv => claimRender c lv ++ claimRenderList cs lv

end

mutual

/-- Test that a subtree consists of element and text nodes only. -/
def goodNode : HNode → Bool
  | .mk t _ cs => (t = NodeType.elementNode || t = NodeType.textNode) && goodList cs

def goodList : List HNode → Bool
  | [] => true
  | c :: cs => goodNode c && goodList cs

end

/-- Node kinds rejected by the `dumpLevel` switch. -/
def offending (t : NodeType) : Bool :=
  match t with
  | .elementNode => false
  | .textNode => false
  | _ => true

/-- Error message produced by the `dumpLevel` switch for a rejected kind. -/
def errMsg : NodeType → String
  | .errorNode => "unexpected ErrorNode"
  | .documentNode => "unexpected DocumentNode"
  | .commentNode => "COMMENT"
  | .doctypeNode => "unknown node type"
  | .elementNode => ""
  | .textNode => ""

mutual

/-- Kind of the first rejected node in preorder, if any. -/
def firstOffender : HNode → Option NodeType
  | .mk t _ cs => if offending t then some t else firstOffenderList cs

def firstOffenderList : List HNode → Option NodeType
  | [] => none
  | c :: cs =>
    match firstOffender c with
    | some t => some t
    | none => firstOffenderList cs

end

mutual

/-- Test whether a subtree contains a node of the given kind. -/
def hasType (t : NodeType) : HNode → Bool
  | .mk u _ cs => u = t || hasTypeList t cs

def hasTypeList (t : NodeType) : List HNode → Bool
  | [] => false
  | c :: cs => hasType t c || hasTypeList t cs

end

/-! ## XML escaping (xmlSpecial, xmlEscape) -/

/-- Embedding of the `xmlSpecial` map (src/goissue.go lines 502-508). -/
def xmlSpecial (c : Char) : Option String :=
  if c = '<' then some "&lt;"
  else if c = '>' then some "&gt;"
  else if c = '"' then some "&quot;"
  else if c = '\'' then some "&apos;"
  else if c = '&' then some "&amp;"
  else none

/-- Embedding of `xmlEscape` (src/goissue.go lines 799-810): each input
character is looked up in `xmlSpecial`; hits append the replacement to the
buffer, misses append the character itself. -/
def xmlEscape (s : String) : String :=
  s.data.foldl
    (fun b c =>
      match xmlSpecial c with
      | some r => b ++ r
      | none => b.push c)
    ""

/-- Per-character view of the escaper used to state the claims. -/
def escChar (c : Char) : String :=
  match xmlSpecial c with
  | some r => r
  | none => String.mk [c]

/-- Concatenation, in input order, of the per-character escapes: the
output the escaping claim predicts. -/
def escSpec : List Char → String
  | [] => ""
  | c :: cs => escChar c ++ escSpec cs

/-! ## Line splitting and joining (strings.Split / strings.Join on "\n") -/

/-- Split of a character list at every newline, keeping empty fields, with
the semantics of Go `strings.Split(s, "\n")`: the result always has one
more field than the input has newlines. -/
def splitNl : List Char → List (List Char)
  | [] => [[]]
  | c :: cs =>
    if c = '\n' then [] :: splitNl cs
    else
      match splitNl cs with
      | [] => [[c]]
      | h :: t => (c :: h) :: t

/-- String-level wrapper for `splitNl`. -/
def splitLines (s : String) : List String :=
  (splitNl s.data).map fun l => String.mk l

/-- Embedding of Go `strings.Join(lines, "\n")`. -/
def joinNl : List String → String
  | [] => ""
  | [x] => x
  | x :: xs => x ++ "\n" ++ joinNl xs

/-- First `n` characters of a string, as Go `s[:n]` on ASCII data. -/
def strTake (s : String) (n : Nat) : String :=
  String.mk (s.data.take n)

/-- Characters of a string from position `n` on, as Go `s[n:]` on ASCII
data. -/
def strDrop (s : String) (n : Nat) : String :=
  String.mk (s.data.drop n)

/-! ## Draft parsing (the validation part of createIssue) -/

/-- Embedding of the draft-validation section of `createIssue`
(src/goissue.go lines 875-889): split the edited text on newlines, require
at least 4 lines, require line 0 to be at least 7 characters long with the
first 6 equal to "from: ", require line 1 to be at least 8 characters long
with the first 7 equal to "title: ", and on success return the remainder
of line 0, the remainder of line 1, and lines 3 onward rejoined with
newlines.  `none` models the `log.Fatal("failed to create issue")` exits. -/
def parseDraft (text : String) : Option (String × String × String) :=
  let lines := splitLines text
  if lines.length < 4 then none
  else
    let l0 := lines.getD 0 ""
    if l0.length < 7 ∨ strTake l0 6 ≠ "from: " then none
    else
      let l1 := lines.getD 1 ""
      if l1.length < 8 ∨ strTake l1 7 ≠ "title: " then none
      else some (strDrop l0 6, strDrop l1 7, joinNl (lines.drop 3))

/-- Test that `p` is a prefix of `s`, used to state the draft claim the
way it is written ("begins with"). -/
def beginsWith (p s : String) : Bool :=
  p.data.isPrefixOf s.data

/-- Success condition of draft parsing as the claim literally states it:
at least 4 lines, line 0 begins with "from: ", line 1 begins with
"title: ". -/
def draftClaimPred (text : String) : Bool :=
  let lines := splitLines text
  decide (4 ≤ lines.length) && beginsWith "from: " (lines.getD 0 "")
    && beginsWith "title: " (lines.getD 1 "")

/-- Success condition and result of draft parsing as amended: the code
additionally demands a nonempty remainder after each header prefix
(line 0 at least 7 characters, line 1 at least 8). -/
def parseDraftSpec (text : String) : Option (String × String × String) :=
  let lines := splitLines text
  let l0 := lines.getD 0 ""
  let l1 := lines.getD 1 ""
  if 4 ≤ lines.length ∧ 7 ≤ l0.length ∧ strTake l0 6 = "from: "
      ∧ 8 ≤ l1.length ∧ strTake l1 7 = "title: " then
    some (strDrop l0 6, strDrop l1 7, joinNl (lines.drop 3))
  else none

/-- Test whether the character list `p` occurs contiguously inside `s`. -/
def containsSub (p : List Char) : List Char → Bool
  | [] => p.isEmpty
  | c :: rest => p.isPrefixOf (c :: rest) || containsSub p rest

/-! ## Login-token extraction (authLogin) -/

/-- Outcome of the login exchange. -/
inductive LoginResult where
  | fatalStatus (status : Nat)
  | indexOutOfRange
  | token (t : String)
  deriving DecidableEq

/-- Embedding of `authLogin` (src/goissue.go lines 553-573) as a function
of the HTTP response: a non-200 status is fatal
(`log.Fatal("failed to authenticate:", res.Status)`); otherwise the body
is split on newlines and `lines[2]` is returned, where
`LoginResult.indexOutOfRange` models the Go panic when the split has
fewer than three fields. -/
def authLogin (status : Nat) (body : String) : LoginResult :=
  if status ≠ 200 then LoginResult.fatalStatus status
  else
    match (splitLines body).get? 2 with
    | some line => LoginResult.token line
    | none => LoginResult.indexOutOfRange

/-! ## Atom document assembled by createIssue -/

/-- Embedding of the `fmt.Sprintf` document of `createIssue`
(src/goissue.go lines 902-917), with the four `%s` slots filled by the
escaped title, body, author and title again. -/
def createIssueXML (title body fromName : String) : String :=
  "<?xml version='1.0' encoding='UTF-8'?>\n" ++
  "<entry xmlns='http://www.w3.org/2005/Atom' xmlns:issues='http://schemas.google.com/projecthosting/issues/2009'>\n" ++
  "<title>" ++ xmlEscape title ++ "</title>\n" ++
  "<content type='html'>" ++ xmlEscape body ++ "</content>\n" ++
  "<author><name>" ++ xmlEscape fromName ++ "</name></author>\n" ++
  "<issues:updates>\n" ++
  "<issues:summary>" ++ xmlEscape title ++ "</issues:summary>\n" ++
  "<issues:status>Started</issues:status>\n" ++
  "<issues:label>-Type-Defect</issues:label>\n" ++
  "<issues:label>-Priority-Medium</issues:label>\n" ++
  "</issues:updates>\n" ++
  "</entry>"

/-- Fields a created issue is allowed to carry, per the specification:
title, content, one author name, and the summary, status and label
extensions.  There is no field for id, published, updated, link, cc,
owner, stars or state. -/
structure SubmittedEntry where
  title : String
  content : String
  authorName : String
  summary : String
  status : String
  labels : List String

/-- Rendering of a `SubmittedEntry` into the fixed Atom template; used to
compare the hand-assembled document against the field set the
specification permits. -/
def renderSubmission (e : SubmittedEntry) : String :=
  "<?xml version='1.0' encoding='UTF-8'?>\n" ++
  "<entry xmlns='http://www.w3.org/2005/Atom' xmlns:issues='http://schemas.google.com/projecthosting/issues/2009'>\n" ++
  "<title>" ++ e.title ++ "</title>\n" ++
  "<content type='html'>" ++ e.content ++ "</content>\n" ++
  "<author><name>" ++ e.authorName ++ "</name></author>\n" ++
  "<issues:updates>\n" ++
  "<issues:summary>" ++ e.summary ++ "</issues:summary>\n" ++
  "<issues:status>" ++ e.status ++ "</issues:status>\n" ++
  String.join (e.labels.map fun l => "<issues:label>" ++ l ++ "</issues:label>\n") ++
  "</issues:updates>\n" ++
  "</entry>"

/-! ## Dispatch structure of main -/

/-- Observable steps of a run of `main`, in order. -/
inductive MainStep where
  | usageExit
  | getConfig
  | loginRequest
  | fatalExit
  | createIssue
  | searchIssues (word : String)
  | showIssues
  | showIssue (id : String)
  | showComments (id : String)
  deriving DecidableEq

/-- Steps a main-step performs against the issue-feed endpoints. -/
def isFeedOp : MainStep → Bool
  | .createIssue => true
  | .searchIssues _ => true
  | .showIssues => true
  | .showIssue _ => true
  | .showComments _ => true
  | _ => false

/-- Branching of `main` after a successful login (src/goissue.go lines
950-963): `-C` wins, then `-s`, then the no-argument listing, then one
`showIssue` per positional argument with an optional `showComments`. -/
def mainDispatch (create : Bool) (search : String) (comment : Bool) (args : List String) :
    List MainStep :=
  if create then [MainStep.createIssue]
  else if 0 < search.length then [MainStep.searchIssues search]
  else if args.length = 0 then [MainStep.showIssues]
  else args.flatMap fun id =>
    MainStep.showIssue id :: if comment then [MainStep.showComments id] else []

/-- Step trace of `main` (src/goissue.go lines 933-964) as a function of
the parsed flags, the positional arguments and the login HTTP status.
More than one positional argument prints the usage text and exits before
the configuration is even read; otherwise the configuration is read, the
login request is issued, a non-200 login status is fatal
(`authLogin` calls `log.Fatal`), and only then does the dispatch run.
Reading the configuration file is assumed to succeed. -/
def mainTrace (create : Bool) (search : String) (comment : Bool) (args : List String)
    (loginStatus : Nat) : List MainStep :=
  if 1 < args.length then [MainStep.usageExit]
  else
    MainStep.getConfig :: MainStep.loginRequest ::
      (if loginStatus ≠ 200 then [MainStep.fatalExit]
       else mainDispatch create search comment args)

/-! ## Concrete trees used as test inputs -/

/-- Fragment whose only grandchild is a childless element: root, one
element child, one element grandchild. -/
def nestedElemTree : HNode :=
  HNode.mk NodeType.documentNode ""
    [HNode.mk NodeType.elementNode "p" [HNode.mk NodeType.elementNode "b" []]]

/-- Fragment containing a document node before a comment node among the
root's children. -/
def docThenCommentTree : HNode :=
  HNode.mk NodeType.documentNode ""
    [HNode.mk NodeType.documentNode "" [], HNode.mk NodeType.commentNode "c" []]

/-- Well-formed fragment of elements and texts used as a witness input. -/
def goodTree : HNode :=
  HNode.mk NodeType.documentNode ""
    [HNode.mk NodeType.elementNode "p"
      [HNode.mk NodeType.textNode "hello" [],
       HNode.mk NodeType.elementNode "b" [HNode.mk NodeType.textNode "world" []]],
     HNode.mk NodeType.textNode "tail" []]

/-- Fragment whose first child is a comment node. -/
def commentTree : HNode :=
  HNode.mk NodeType.documentNode "" [HNode.mk NodeType.commentNode "c" []]

/-- Fragment whose only child is a text node containing a '%' verb. -/
def percentTree : HNode :=
  HNode.mk NodeType.documentNode "" [HNode.mk NodeType.textNode "%d" []]

/-! ## Helper lemmas about the escaper -/

theorem escChar_of_special {c : Char} {r : String} (h : xmlSpecial c = some r) :
    escChar c = r := by
  simp [escChar, h]

theorem escChar_of_plain {c : Char} (h : xmlSpecial c = none) :
    escChar c = String.mk [c] := by
  simp [escChar, h]

theorem xmlSpecial_cases {c : Char} {r : String} (h : xmlSpecial c = some r) :
    r = "&lt;" ∨ r = "&gt;" ∨ r = "&quot;" ∨ r = "&apos;" ∨ r = "&amp;" := by
  unfold xmlSpecial at h
  split_ifs at h <;> simp_all

theorem one_le_length_escChar (c : Char) : 1 ≤ (escChar c).length := by
  rcases h : xmlSpecial c with _ | r
  · rw [escChar_of_plain h]
    exact Nat.le_refl 1
  · rw [escChar_of_special h]
    rcases xmlSpecial_cases h with h5 | h5 | h5 | h5 | h5 <;> subst h5 <;> decide

theorem amp_mem_special {c : Char} {r : String} (h : xmlSpecial c = some r) :
    '&' ∈ r.data := by
  rcases xmlSpecial_cases h with h5 | h5 | h5 | h5 | h5 <;> subst h5 <;> decide

theorem push_eq_append (b : String) (c : Char) : b.push c = b ++ String.mk [c] := rfl

theorem foldl_escape (l : List Char) : ∀ b : String,
    l.foldl
      (fun b c =>
        match xmlSpecial c with
        | some r => b ++ r
        | none => b.push c)
      b = b ++ escSpec l := by
  induction l with
  | nil => intro b; simp [escSpec]
  | cons c cs ih =>
    intro b
    simp only [List.foldl_cons, escSpec]
    rcases h : xmlSpecial c with _ | r
    · rw [ih, push_eq_append, escChar_of_plain h, String.append_assoc]
    · rw [ih, escChar_of_special h, String.append_assoc]

theorem xmlEscape_eq_escSpec (s : String) : xmlEscape s = escSpec s.data := by
  unfold xmlEscape
  rw [foldl_escape]
  exact String.empty_append _

theorem length_le_length_escSpec (l : List Char) : l.length ≤ (escSpec l).length := by
  induction l with
  | nil => exact Nat.le_refl 0
  | cons c cs ih =>
    simp only [escSpec, String.length_append, List.length_cons]
    have := one_le_length_escChar c
    omega

theorem length_lt_length_escSpec {l : List Char} (h : '&' ∈ l) :
    l.length < (escSpec l).length := by
  induction l with
  | nil => cases h
  | cons c cs ih =>
    simp only [escSpec, String.length_append, List.length_cons]
    rcases List.mem_cons.mp h with h1 | h1
    · have h2 : escChar c = "&amp;" := by rw [← h1]; decide
      have h3 := length_le_length_escSpec cs
      rw [h2]
      have h4 : ("&amp;" : String).length = 5 := by decide
      omega
    · have h2 := one_le_length_escChar c
      have h3 := ih h1
      omega

theorem amp_mem_escSpec {l : List Char} {c : Char} (hm : c ∈ l)
    (hs : (xmlSpecial c).isSome = true) : '&' ∈ (escSpec l).data := by
  induction l with
  | nil => cases hm
  | cons a as ih =>
    simp only [escSpec, String.data_append, List.mem_append]
    rcases List.mem_cons.mp hm with h1 | h1
    · left
      rcases h : xmlSpecial a with _ | r
      · rw [h1, h] at hs; cases hs
      · rw [escChar_of_special h]
        exact amp_mem_special h
    · right
      exact ih h1

/-- C5: for every input string, `xmlEscape` replaces each occurrence of
the five characters < > " ' & with their named entities, alters no other
character and preserves order (its output is the in-order concatenation
of the per-character escapes), and on the concrete input from the
specification it produces the expected entity string. -/
theorem xmlEscape_replaces_specials :
    (∀ s : String, xmlEscape s = escSpec s.data) ∧
    escChar '<' = "&lt;" ∧ escChar '>' = "&gt;" ∧ escChar '"' = "&quot;" ∧
    escChar '\'' = "&apos;" ∧ escChar '&' = "&amp;" ∧
    (∀ c : Char, xmlSpecial c = none → escChar c = String.mk [c]) ∧
    xmlEscape "<a&b>'\"" = "&lt;a&amp;b&gt;&apos;&quot;" := by
  refine ⟨xmlEscape_eq_escSpec, by decide, by decide, by decide, by decide, by decide,
    fun c h => escChar_of_plain h, by decide⟩

/-- Witness for C5 at a non-special character: escaping leaves `x`
unchanged. -/
theorem xmlEscape_replaces_specials_witness : escChar 'x' = String.mk ['x'] :=
  xmlEscape_replaces_specials.2.2.2.2.2.2.1 'x' (by decide)

/-- C6: `xmlEscape` is not idempotent; for every string containing one of
the five special characters, escaping twice differs from escaping once,
because the `&` introduced by the first pass is re-encoded. -/
theorem xmlEscape_not_idempotent :
    ∀ (s : String) (c : Char), c ∈ s.data → (xmlSpecial c).isSome = true →
      xmlEscape (xmlEscape s) ≠ xmlEscape s := by
  intro s c hc hs hEq
  have h1 : '&' ∈ (xmlEscape s).data := by
    rw [xmlEscape_eq_escSpec]
    exact amp_mem_escSpec hc hs
  have h2 : (xmlEscape s).data.length < (xmlEscape (xmlEscape s)).length := by
    rw [xmlEscape_eq_escSpec (xmlEscape s)]
    exact length_lt_length_escSpec h1
  have h3 : (xmlEscape (xmlEscape s)).length = (xmlEscape s).data.length := by
    rw [hEq]
    rfl
  omega

/-- Witness for C6: escaping `<` twice double-encodes. -/
theorem xmlEscape_not_idempotent_witness :
    xmlEscape (xmlEscape "<") ≠ xmlEscape "<" :=
  xmlEscape_not_idempotent "<" '<' (by decide) (by decide)

/-! ## Helper lemmas about the flattener -/

theorem doPrintf_percentFree : ∀ l : List Char,
    (l.all fun c => c ≠ '%') = true → doPrintf l = l := by
  intro l
  induction l with
  | nil => intro _; simp [doPrintf]
  | cons c cs ih =>
    intro h
    simp only [List.all_cons, Bool.and_eq_true, decide_eq_true_eq] at h
    rw [doPrintf, if_neg h.1, ih h.2]

theorem fprintfRender_percentFree (s : String) (h : percentFree s = true) :
    fprintfRender s = s := by
  rw [fprintfRender, doPrintf_percentFree s.data h]

theorem dump_spec_node : ∀ (n : HNode) (lv : Nat),
    (firstOffender n = none → dumpLevel n lv = (flattenSpec n lv, none)) ∧
    (∀ u, firstOffender n = some u → (dumpLevel n lv).2 = some (errMsg u)) := by
  apply dumpLevel.induct
    (fun n lv =>
      (firstOffender n = none → dumpLevel n lv = (flattenSpec n lv, none)) ∧
      (∀ u, firstOffender n = some u → (dumpLevel n lv).2 = some (errMsg u)))
    (fun l lv =>
      (firstOffenderList l = none → dumpList l lv = (flattenSpecList l lv, none)) ∧
      (∀ u, firstOffenderList l = some u → (dumpList l lv).2 = some (errMsg u)))
  · intro d cs lv
    constructor
    · intro h
      simp [firstOffender, offending] at h
    · intro u h
      simp [firstOffender, offending] at h
      subst h
      simp [dumpLevel, errMsg]
  · intro d cs lv
    constructor
    · intro h
      simp [firstOffender, offending] at h
    · intro u h
      simp [firstOffender, offending] at h
      subst h
      simp [dumpLevel, errMsg]
  · intro d cs lv ih
    constructor
    · intro h
      simp only [firstOffender, offending] at h
      simp only [if_false, Bool.false_eq_true] at h
      have h2 := ih.1 h
      simp [dumpLevel, flattenSpec, h2]
    · intro u h
      simp only [firstOffender, offending] at h
      simp only [if_false, Bool.false_eq_true] at h
      have h2 := ih.2 u h
      simp [dumpLevel, h2]
  · intro d cs lv ih
    constructor
    · intro h
      simp only [firstOffender, offending] at h
      simp only [if_false, Bool.false_eq_true] at h
      have h2 := ih.1 h
      simp [dumpLevel, flattenSpec, h2]
    · intro u h
      simp only [firstOffender, offending] at h
      simp only [if_false, Bool.false_eq_true] at h
      have h2 := ih.2 u h
      simp [dumpLevel, h2]
  · intro d cs lv
    constructor
    · intro h
      simp [firstOffender, offending] at h
    · intro u h
      simp [firstOffender, offending] at h
      subst h
      simp [dumpLevel, errMsg]
  · intro d cs lv
    constructor
    · intro h
      simp [firstOffender, offending] at h
    · intro u h
      simp [firstOffender, offending] at h
      subst h
      simp [dumpLevel, errMsg]
  · intro lv
    constructor
    · intro _
      simp [dumpList, flattenSpecList]
    · intro u h
      simp [firstOffenderList] at h
  · intro c cs lv r e he ih1
    have hr : r = dumpLevel c lv := rfl
    rw [hr] at he
    rcases hf : firstOffender c with _ | u
    · have h2 := ih1.1 hf
      rw [h2] at he
      cases he
    · have h2 := ih1.2 u hf
      constructor
      · intro h
        simp [firstOffenderList, hf] at h
      · intro t ht
        simp only [firstOffenderList, hf, Option.some.injEq] at ht
        subst ht
        simp [dumpList, he]
        rw [he] at h2
        exact Option.some.inj h2
  · intro c cs lv r he ih1 ih2
    have hr : r = dumpLevel c lv := rfl
    rw [hr] at he
    rcases hf : firstOffender c with _ | u
    · have h2 := ih1.1 hf
      constructor
      · intro h
        simp only [firstOffenderList, hf] at h
        have h3 := ih2.1 h
        simp [dumpList, h2, h3, flattenSpecList]
      · intro t ht
        simp only [firstOffenderList, hf] at ht
        have h3 := ih2.2 t ht
        simp [dumpList, h2, h3]
    · have h2 := ih1.2 u hf
      rw [he] at h2
      cases h2

theorem dump_spec_list : ∀ (l : List HNode) (lv : Nat),
    (firstOffenderList l = none → dumpList l lv = (flattenSpecList l lv, none)) ∧
    (∀ u, firstOffenderList l = some u → (dumpList l lv).2 = some (errMsg u)) := by
  intro l
  induction l with
  | nil =>
    intro lv
    constructor
    · intro _
      simp [dumpList, flattenSpecList]
    · intro u h
      simp [firstOffenderList] at h
  | cons c cs ih =>
    intro lv
    rcases hf : firstOffender c with _ | u
    · have h1 := (dump_spec_node c lv).1 hf
      constructor
      · intro h
        simp only [firstOffenderList, hf] at h
        have h2 := (ih lv).1 h
        simp [dumpList, h1, h2, flattenSpecList]
      · intro u h
        simp only [firstOffenderList, hf] at h
        have h2 := (ih lv).2 u h
        simp [dumpList, h1, h2]
    · have h1 := (dump_spec_node c lv).2 u hf
      constructor
      · intro h
        simp [firstOffenderList, hf] at h
      · intro t ht
        simp only [firstOffenderList, hf, Option.some.injEq] at ht
        subst ht
        simp [dumpList, h1]

theorem not_offending (t : NodeType) :
    ((t = NodeType.elementNode || t = NodeType.textNode) : Bool) = !offending t := by
  cases t <;> rfl

theorem goodNode_iff : ∀ n : HNode, goodNode n = true ↔ firstOffender n = none := by
  apply goodNode.induct
    (fun n => goodNode n = true ↔ firstOffender n = none)
    (fun l => goodList l = true ↔ firstOffenderList l = none)
  · intro t d cs ih
    cases ho : offending t
    · simp [goodNode, not_offending, firstOffender, ho, ih]
    · simp [goodNode, not_offending, firstOffender, ho]
  · simp [goodList, firstOffenderList]
  · intro c cs ih1 ih2
    rcases hf : firstOffender c with _ | u
    · simp [goodList, firstOffenderList, hf, ih1, ih2]
    · simp [goodList, firstOffenderList, hf, ih1]

theorem goodList_iff : ∀ l : List HNode, goodList l = true ↔ firstOffenderList l = none := by
  intro l
  induction l with
  | nil => simp [goodList, firstOffenderList]
  | cons c cs ih =>
    rcases hf : firstOffender c with _ | u
    · simp [goodList, firstOffenderList, hf, goodNode_iff c, ih]
    · simp [goodList, firstOffenderList, hf, goodNode_iff c]

theorem hasType_offender : ∀ n : HNode, ∀ t, offending t = true →
    hasType t n = true → firstOffender n ≠ none := by
  apply goodNode.induct
    (fun n => ∀ t, offending t = true → hasType t n = true → firstOffender n ≠ none)
    (fun l => ∀ t, offending t = true → hasTypeList t l = true → firstOffenderList l ≠ none)
  · intro u d cs ih t ho hh
    cases hu : offending u
    · rw [firstOffender]
      simp only [hu, Bool.false_eq_true, if_false]
      apply ih t ho
      simp only [hasType, Bool.or_eq_true, decide_eq_true_eq] at hh
      rcases hh with h1 | h1
      · rw [h1, ho] at hu
        cases hu
      · exact h1
    · simp [firstOffender, hu]
  · intro t _ hh
    simp [hasTypeList] at hh
  · intro c cs ih1 ih2 t ho hh
    rw [firstOffenderList]
    rcases hf : firstOffender c with _ | u
    · simp only [hf]
      simp only [hasTypeList, Bool.or_eq_true] at hh
      rcases hh with h1 | h1
      · exact absurd hf (ih1 t ho h1)
      · exact ih2 t ho h1
    · simp [hf]

theorem dump_good_root (root : HNode) (h : goodList (HNode.child root) = true) :
    dump (some root) = (flattenSpecList (HNode.child root) 0, none) := by
  rcases root with ⟨t, d, cs⟩
  simp only [HNode.child] at h ⊢
  cases cs with
  | nil => simp [dump, HNode.child, flattenSpecList]
  | cons c cs' =>
    have h1 := (dump_spec_list (c :: cs') 0).1 ((goodList_iff _).mp h)
    simp [dump, HNode.child, h1]

theorem dump_offender_root (root : HNode) (u : NodeType)
    (h : firstOffenderList (HNode.child root) = some u) :
    dump (some root) = ("", some (errMsg u)) := by
  rcases root with ⟨t, d, cs⟩
  simp only [HNode.child] at h
  cases cs with
  | nil => simp [firstOffenderList] at h
  | cons c cs' =>
    have h2 := (dump_spec_list (c :: cs') 0).2 u h
    rcases hd : dumpList (c :: cs') 0 with ⟨out, e⟩
    rw [hd] at h2
    simp only at h2
    subst h2
    simp [dump, HNode.child, hd]

/-! ## Claims about the flattener -/

/-- C1 (amended): for every HTML fragment tree whose nodes below the root
are only element and text nodes, `dump` returns without error, and its
output is the concatenation, in document order, of the renderings of all
visited nodes, where every visited node (element or text) contributes the
two-space indents of its own depth and a text node additionally
contributes its content as written by `fmt.Fprintf` with no operands —
which is the content itself whenever it contains no '%' (depth 0 for
children of the root).  The claim as frozen fails on two counts: it
counts indents for text nodes only, and it promises the text content
verbatim while Fprintf format-processes it; see the counterexample. -/
theorem dump_flatten_all_nodes :
    (∀ root : HNode, goodList (HNode.child root) = true →
      dump (some root) = (flattenSpecList (HNode.child root) 0, none)) ∧
    (∀ s : String, percentFree s = true → fprintfRender s = s) :=
  ⟨fun root h => dump_good_root root h, fprintfRender_percentFree⟩

/-- Witness for C1 on a concrete element/text tree with '%'-free text. -/
theorem dump_flatten_all_nodes_witness :
    goodList (HNode.child goodTree) = true ∧
    dump (some goodTree) = (flattenSpecList (HNode.child goodTree) 0, none) ∧
    dump (some goodTree) = ("  hello      worldtail", none) ∧
    fprintfRender "hello" = "hello" :=
  ⟨by decide, dump_flatten_all_nodes.1 goodTree (by decide), by decide,
   dump_flatten_all_nodes.2 "hello" (by decide)⟩

/-- Counterexample to C1 as frozen: `nestedElemTree` contains only element
nodes below the root, yet `dump` outputs the two-space indent of the
depth-1 element, while the concatenation of indented text-node contents
predicted by the claim is empty; and `percentTree` holds the single text
node "%d", for which `dump` outputs the format-processed "%!d(MISSING)"
rather than the verbatim content the claim predicts. -/
theorem dump_flatten_claim_counterexample :
    goodList (HNode.child nestedElemTree) = true ∧
    dump (some nestedElemTree) = ("  ", none) ∧
    claimRenderList (HNode.child nestedElemTree) 0 = "" ∧
    (dump (some nestedElemTree)).1 ≠ claimRenderList (HNode.child nestedElemTree) 0 ∧
    goodList (HNode.child percentTree) = true ∧
    dump (some percentTree) = ("%!d(MISSING)", none) ∧
    claimRenderList (HNode.child percentTree) 0 = "%d" ∧
    (dump (some percentTree)).1 ≠ claimRenderList (HNode.child percentTree) 0 := by
  refine ⟨by decide, by decide, by decide, by decide, by decide, by decide, by decide,
    by decide⟩

theorem hasTypeList_offender : ∀ (l : List HNode) (t : NodeType), offending t = true →
    hasTypeList t l = true → firstOffenderList l ≠ none := by
  intro l
  induction l with
  | nil =>
    intro t _ hh
    simp [hasTypeList] at hh
  | cons c cs ih =>
    intro t ho hh
    rw [firstOffenderList]
    rcases hf : firstOffender c with _ | u
    · simp only [hf]
      simp only [hasTypeList, Bool.or_eq_true] at hh
      rcases hh with h1 | h1
      · exact absurd hf (hasType_offender c t ho h1)
      · exact ih t ho h1
    · simp [hf]

/-- C8 (amended): flattening fails with the error of the first rejected
node in document order: "COMMENT" when that node is a comment,
"unexpected DocumentNode" or "unexpected ErrorNode" when it is a document
or error node; any tree containing a rejected node below the root fails
with some error; and a nil root or a root with zero children flattens to
the empty string with no error.  The claim as frozen, which ties the
error to the comment node regardless of what is encountered first, fails;
see the counterexample. -/
theorem dump_error_cases :
    (∀ root, firstOffenderList (HNode.child root) = some NodeType.commentNode →
      dump (some root) = ("", some "COMMENT")) ∧
    (∀ root, firstOffenderList (HNode.child root) = some NodeType.documentNode →
      dump (some root) = ("", some "unexpected DocumentNode")) ∧
    (∀ root, firstOffenderList (HNode.child root) = some NodeType.errorNode →
      dump (some root) = ("", some "unexpected ErrorNode")) ∧
    (∀ root t, offending t = true → hasTypeList t (HNode.child root) = true →
      (dump (some root)).2 ≠ none) ∧
    dump none = ("", none) ∧
    (∀ t d, dump (some (HNode.mk t d [])) = ("", none)) := by
  refine ⟨fun root h => dump_offender_root root _ h,
    fun root h => dump_offender_root root _ h,
    fun root h => dump_offender_root root _ h,
    ?_, rfl, fun t d => by simp [dump, HNode.child]⟩
  intro root t ho hh
  have h1 := hasTypeList_offender (HNode.child root) t ho hh
  rcases Option.ne_none_iff_exists'.mp h1 with ⟨v, hv⟩
  have h3 := dump_offender_root root v hv
  rw [h3]
  simp

/-- Witness for C8: a tree whose first child is a comment fails with the
comment error, and a nil root flattens to the empty string. -/
theorem dump_error_cases_witness :
    dump (some commentTree) = ("", some "COMMENT") ∧ dump none = ("", none) :=
  ⟨dump_error_cases.1 commentTree (by decide), dump_error_cases.2.2.2.2.1⟩

/-- Counterexample to C8 as frozen: `docThenCommentTree` contains a
comment node, yet flattening fails with the document-node error of the
earlier offending node, not with "COMMENT". -/
theorem dump_error_claim_counterexample :
    hasTypeList NodeType.commentNode (HNode.child docThenCommentTree) = true ∧
    dump (some docThenCommentTree) = ("", some "unexpected DocumentNode") ∧
    dump (some docThenCommentTree) ≠ ("", some "COMMENT") := by
  refine ⟨by decide, by decide, by decide⟩

/-- C10: `dumpLevel` writes the `level` two-space indents for every
visited node regardless of kind — the written text always starts with the
indent, an element with no children or a rejected node still writes
exactly the indent, a childless text node writes the indent followed by
its Fprintf-rendered data — and `dump` discards all partial output,
returning the empty string whenever it returns an error. -/
theorem dumpLevel_indents_every_node :
    (∀ (n : HNode) (lv : Nat), ∃ rest, (dumpLevel n lv).1 = indentStr lv ++ rest) ∧
    (∀ (n : HNode) (lv : Nat), offending (HNode.type n) = true →
      (dumpLevel n lv).1 = indentStr lv) ∧
    (∀ (t : NodeType) (d : String) (lv : Nat),
      (dumpLevel (HNode.mk t d []) lv).1
        = indentStr lv ++ (if t = NodeType.textNode then fprintfRender d else "")) ∧
    (∀ (m : Option HNode) (e : String), (dump m).2 = some e → (dump m).1 = "") := by
  refine ⟨?_, ?_, ?_, ?_⟩
  · intro n lv
    rcases n with ⟨t, d, cs⟩
    cases t
    · exact ⟨"", (String.append_empty _).symm⟩
    · exact ⟨fprintfRender d ++ (dumpList cs (lv + 1)).1,
        by simp [dumpLevel, String.append_assoc]⟩
    · exact ⟨"", (String.append_empty _).symm⟩
    · exact ⟨(dumpList cs (lv + 1)).1, by simp [dumpLevel]⟩
    · exact ⟨"", (String.append_empty _).symm⟩
    · exact ⟨"", (String.append_empty _).symm⟩
  · intro n lv ho
    rcases n with ⟨t, d, cs⟩
    simp only [HNode.type] at ho
    cases t
    · simp [dumpLevel]
    · simp [offending] at ho
    · simp [dumpLevel]
    · simp [offending] at ho
    · simp [dumpLevel]
    · simp [dumpLevel]
  · intro t d lv
    cases t <;> simp [dumpLevel, dumpList]
  · intro m e h
    rcases m with _ | n
    · cases h
    · simp only [dump] at h ⊢
      split at h
      · cases h
      · split at h
        · simp at h
        · split <;> rfl

/-- Witness for C10: a rejected comment node at level 2 still writes the
two-level indent, and erroring `dump` output is empty. -/
theorem dumpLevel_indents_every_node_witness :
    (dumpLevel (HNode.mk NodeType.commentNode "c" []) 2).1 = indentStr 2 ∧
    (dump (some commentTree)).1 = "" :=
  ⟨dumpLevel_indents_every_node.2.1 (HNode.mk NodeType.commentNode "c" []) 2 (by decide),
   dumpLevel_indents_every_node.2.2.2 (some commentTree) "COMMENT" (by decide)⟩

/-! ## Claims about main's dispatch and the login contract -/

/-- C2 (amended): every invocation with two or more positional arguments
is rejected up front, whatever the flags: `main` prints the usage text
and exits before reading the configuration or logging in, so no issue is
shown.  The claim as frozen, which says each named issue is shown in
turn, fails; see the counterexample. -/
theorem main_rejects_multiple_args :
    ∀ (create : Bool) (search : String) (comment : Bool) (args : List String) (st : Nat),
      2 ≤ args.length → mainTrace create search comment args st = [MainStep.usageExit] := by
  intro c s cm args st h
  rw [mainTrace, if_pos (by omega)]

/-- Witness for C2 at a two-argument invocation. -/
theorem main_rejects_multiple_args_witness :
    mainTrace false "" false ["1", "2"] 200 = [MainStep.usageExit] :=
  main_rejects_multiple_args false "" false ["1", "2"] 200 (by decide)

/-- Counterexample to C2 as frozen: with two positional arguments (and no
-C or -s flag) neither issue is shown; the run is just the usage exit. -/
theorem main_multiple_args_counterexample :
    MainStep.showIssue "1" ∉ mainTrace false "" false ["1", "2"] 200 ∧
    MainStep.showIssue "2" ∉ mainTrace false "" false ["1", "2"] 200 ∧
    mainTrace false "" false ["1", "2"] 200 = [MainStep.usageExit] := by
  refine ⟨by decide, by decide, by decide⟩

/-- C9: a non-success login status terminates the run with no feed
operation issued, and in every run each feed operation is preceded by the
login request and implies the login succeeded. -/
theorem feed_ops_require_login :
    (∀ (c : Bool) (s : String) (cm : Bool) (args : List String) (st : Nat), st ≠ 200 →
      ∀ step ∈ mainTrace c s cm args st, isFeedOp step = false) ∧
    (∀ (c : Bool) (s : String) (cm : Bool) (args : List String) (st : Nat) (step : MainStep),
      step ∈ mainTrace c s cm args st → isFeedOp step = true →
      st = 200 ∧ ∃ pre post, mainTrace c s cm args st = pre ++ step :: post ∧
        MainStep.loginRequest ∈ pre) := by
  constructor
  · intro c s cm args st hst step hmem
    by_cases h1 : 1 < args.length
    · rw [mainTrace, if_pos h1] at hmem
      simp only [List.mem_singleton] at hmem
      subst hmem
      rfl
    · rw [mainTrace, if_neg h1, if_pos hst] at hmem
      simp only [List.mem_cons, List.not_mem_nil, or_false] at hmem
      rcases hmem with h | h | h <;> subst h <;> rfl
  · intro c s cm args st step hmem hfeed
    by_cases h1 : 1 < args.length
    · rw [mainTrace, if_pos h1] at hmem
      simp only [List.mem_singleton] at hmem
      subst hmem
      cases hfeed
    · by_cases h2 : st ≠ 200
      · rw [mainTrace, if_neg h1, if_pos h2] at hmem
        simp only [List.mem_cons, List.not_mem_nil, or_false] at hmem
        rcases hmem with h | h | h <;> subst h <;> cases hfeed
      · push_neg at h2
        subst h2
        refine ⟨rfl, ?_⟩
        rw [mainTrace, if_neg h1, if_neg (by simp)] at hmem ⊢
        rcases List.mem_cons.mp hmem with h | hmem'
        · subst h; cases hfeed
        rcases List.mem_cons.mp hmem' with h | hmem''
        · subst h; cases hfeed
        rcases List.append_of_mem hmem'' with ⟨l1, l2, hsplit⟩
        refine ⟨MainStep.getConfig :: MainStep.loginRequest :: l1, l2, ?_, by simp⟩
        rw [hsplit]
        rfl

/-- Witness for C9: with login status 403 no listing is issued. -/
theorem feed_ops_require_login_witness :
    MainStep.showIssues ∉ mainTrace false "" false [] 403 :=
  fun h =>
    absurd (feed_ops_require_login.1 false "" false [] 403 (by decide) MainStep.showIssues h)
      (by decide)

/-! ## Claims about draft parsing and the login token -/

/-- C3 (amended): draft parsing succeeds if and only if the edited text
splits into at least 4 lines, line 0 is at least 7 characters long and
starts with the 6-character prefix "from: ", and line 1 is at least 8
characters long and starts with the 7-character prefix "title: "
(case-sensitive); on success the author is the remainder of line 0, the
title the remainder of line 1, line 2 is discarded and the body is lines
3 onward rejoined with newlines.  The frozen claim, which asks only that
the prefixes be present, fails on a draft whose header remainder is
empty; see the counterexample. -/
theorem parseDraft_characterization :
    (∀ text : String, parseDraft text = parseDraftSpec text) ∧
    parseDraft "from: Alice\ntitle: Bug X\n--------------\nl3\nl4"
      = some ("Alice", "Bug X", "l3\nl4") ∧
    parseDraft "From: Alice\ntitle: Bug X\n--------------\nbody" = none ∧
    parseDraft "from: Alice\ntitle: Bug X\n--------------" = none := by
  refine ⟨?_, by decide, by decide, by decide⟩
  intro text
  simp only [parseDraft, parseDraftSpec]
  by_cases h1 : (splitLines text).length < 4
  · rw [if_pos h1, if_neg]
    intro hc
    omega
  · rw [if_neg h1]
    by_cases h2 : ((splitLines text).getD 0 "").length < 7
        ∨ strTake ((splitLines text).getD 0 "") 6 ≠ "from: "
    · rw [if_pos h2, if_neg]
      intro hc
      rcases h2 with h2 | h2
      · omega
      · exact h2 hc.2.2.1
    · rw [if_neg h2]
      push_neg at h2
      by_cases h3 : ((splitLines text).getD 1 "").length < 8
          ∨ strTake ((splitLines text).getD 1 "") 7 ≠ "title: "
      · rw [if_pos h3, if_neg]
        intro hc
        rcases h3 with h3 | h3
        · omega
        · exact h3 hc.2.2.2.2
      · rw [if_neg h3]
        push_neg at h3
        rw [if_pos]
        exact ⟨by omega, by omega, h2.2, by omega, h3.2⟩

/-- Counterexample to C3 as frozen: a draft whose first line is exactly
"from: " satisfies every condition of the claim (4 lines, both prefixes
present) yet parsing fails, because the code also demands a nonempty
remainder. -/
theorem parseDraft_claim_counterexample :
    draftClaimPred "from: \ntitle: x\n--------------\nbody" = true ∧
    parseDraft "from: \ntitle: x\n--------------\nbody" = none := by
  refine ⟨by decide, by decide⟩

/-- C4: the login token is exactly the third newline-separated line of
the response body, returned without any content validation (in
particular no "Auth=" prefix check); a 200-status body with fewer than
three lines reaches the out-of-range branch, and a non-200 status is
fatal. -/
theorem authLogin_line2_extraction :
    (∀ body line2, (splitLines body).get? 2 = some line2 →
      authLogin 200 body = LoginResult.token line2) ∧
    (∀ body, (splitLines body).length < 3 →
      authLogin 200 body = LoginResult.indexOutOfRange) ∧
    (∀ st, st ≠ 200 → ∀ body, authLogin st body = LoginResult.fatalStatus st) ∧
    authLogin 200 "SID=a\nLSID=b\nnot-an-auth-token"
      = LoginResult.token "not-an-auth-token" := by
  refine ⟨?_, ?_, ?_, by decide⟩
  · intro body l2 h
    rw [authLogin, if_neg (by simp), h]
  · intro body h
    rw [authLogin, if_neg (by simp), List.get?_eq_none.mpr (by omega)]
  · intro st hst body
    rw [authLogin, if_pos hst]

/-- Witness for C4: a three-line body yields its third line as the token
even without the Auth= prefix, and a one-line body is out of range. -/
theorem authLogin_line2_extraction_witness :
    authLogin 200 "SID=a\nLSID=b\nAuth=tok" = LoginResult.token "Auth=tok" ∧
    authLogin 200 "Error=BadAuthentication" = LoginResult.indexOutOfRange ∧
    authLogin 403 "whatever" = LoginResult.fatalStatus 403 :=
  ⟨authLogin_line2_extraction.1 "SID=a\nLSID=b\nAuth=tok" "Auth=tok" (by decide),
   authLogin_line2_extraction.2.1 "Error=BadAuthentication" (by decide),
   authLogin_line2_extraction.2.2.1 403 (by decide) "whatever"⟩

/-! ## Claim about the created-issue document -/

set_option maxRecDepth 8192 in
/-- C7: the Atom document assembled for issue creation is exactly the
rendering of a submission carrying the escaped title, content and author
name, the summary equal to the (escaped) title, the fixed status
"Started" and exactly the two fixed labels "-Type-Defect" and
"-Priority-Medium" — a `SubmittedEntry` has no field for id, published,
updated, link, cc, owner, stars or state, and on a concrete input none of
those elements occurs in the document while the fixed extensions do. -/
theorem createIssue_submission_fields :
    (∀ t b f, createIssueXML t b f =
      renderSubmission
        { title := xmlEscape t, content := xmlEscape b, authorName := xmlEscape f,
          summary := xmlEscape t, status := "Started",
          labels := ["-Type-Defect", "-Priority-Medium"] }) ∧
    containsSub "<issues:status>Started</issues:status>".data
      (createIssueXML "T" "B" "F").data = true ∧
    containsSub "<issues:label>-Type-Defect</issues:label>".data
      (createIssueXML "T" "B" "F").data = true ∧
    containsSub "<issues:label>-Priority-Medium</issues:label>".data
      (createIssueXML "T" "B" "F").data = true ∧
    containsSub "<issues:summary>T</issues:summary>".data
      (createIssueXML "T" "B" "F").data = true ∧
    containsSub "<id".data (createIssueXML "T" "B" "F").data = false ∧
    containsSub "<published".data (createIssueXML "T" "B" "F").data = false ∧
    containsSub "<updated".data (createIssueXML "T" "B" "F").data = false ∧
    containsSub "<link".data (createIssueXML "T" "B" "F").data = false ∧
    containsSub "<issues:cc".data (createIssueXML "T" "B" "F").data = false ∧
    containsSub "<issues:owner".data (createIssueXML "T" "B" "F").data = false ∧
    containsSub "<issues:stars".data (createIssueXML "T" "B" "F").data = false ∧
    containsSub "<issues:state".data (createIssueXML "T" "B" "F").data = false := by
  refine ⟨?_, by decide, by decide, by decide, by decide, by decide, by decide, by decide,
    by decide, by decide, by decide, by decide, by decide⟩
  intro t b f
  simp only [createIssueXML, renderSubmission, List.map, String.join, List.foldl,
    String.empty_append, String.append_assoc]
  congr 1
